import Mathlib

/- Verification development for the RAG-Assistant repository.

   Shallow embedding of the pure data-transformation core of the
   repository (src/config.py, src/generate_embeddings.py, src/rag.py,
   src/app.py).  External library calls (the vector store, the embedding
   model, the PDF loader, the generative model) are modelled as oracles
   or explicit parameters; all repository-level control flow and string
   manipulation is translated directly from the Python source. -/

/- ===== Configuration constants (src/config.py) ===== -/

/-- CHUNK_SIZE from src/config.py line 32. -/
def CHUNK_SIZE : Nat := 600

/-- CHUNK_OVERLAP from src/config.py line 33. -/
def CHUNK_OVERLAP : Nat := 100

/-- PERSIST_DIRECTORY from src/config.py line 29. -/
def PERSIST_DIRECTORY : String := "books_index"

/-- BOOKS_MAP from src/config.py lines 36-40: title-keyed mapping of the
three configured books to their PDF filenames, in declaration order. -/
def BOOKS_MAP : List (String × String) :=
  [("Harry Potter 1", "harry-potter-1-lecole-des-sorciers.pdf"),
   ("Harry Potter 2", "harry-potter-2-la-chambre-des-secrets.pdf"),
   ("Hunger Games", "CollinsSuzanne-HungerGames-1HungerGames2008.French.ebook_1 (1).pdf")]

/- ===== Data model ===== -/

/-- The slice of a langchain document metadata dict that the repository
reads: the values at the keys "source" and "page" (absent keys are
`none`).  A metadata dict holding neither key but some other key is
`some ⟨none, none⟩`; a missing or empty (falsy) dict is represented as
`none` at the `Doc` level. -/
structure Metadata where
  source : Option String
  page : Option String
deriving DecidableEq, Repr

/-- A langchain Document as the repository sees it: `page_content` text
plus an optional metadata dict.  `metadata = none` models a document
whose metadata attribute is missing, `None`, or an empty dict (all
falsy in the Python checks of the source). -/
structure Doc where
  page_content : String
  metadata : Option Metadata
deriving DecidableEq, Repr

/-- The Source dataclass from src/rag.py lines 17-21. -/
structure Source where
  name : String
  page : String
deriving DecidableEq, Repr

/- ===== String helpers translated from the Python builtins used ===== -/

/-- Python substring membership `needle in hay` on character lists:
true iff `needle` occurs contiguously inside `hay` (the empty needle is
always contained). -/
def containsSub : List Char → List Char → Bool
  | [], needle => needle.isEmpty
  | c :: t, needle => needle.isPrefixOf (c :: t) || containsSub t needle

/-- Python substring membership `needle in hay` on strings. -/
def strContains (hay needle : String) : Bool :=
  containsSub hay.data needle.data

/-- os.path.basename / pathlib .name as used on the forward-slash paths
of this repository: the component after the last "/". -/
def basename (p : String) : String :=
  (p.splitOn "/").getLastD p

/-- Python str.replace for a non-empty pattern: scan left to right,
replacing each (non-overlapping) occurrence of `pat` by `rep`.  The
repository only calls it with the one-character pattern "\n". -/
def replaceList (pat rep : List Char) : List Char → List Char
  | [] => []
  | c :: cs =>
    if !pat.isEmpty && pat.isPrefixOf (c :: cs) then
      rep ++ replaceList pat rep (cs.drop (pat.length - 1))
    else
      c :: replaceList pat rep cs
termination_by l => l.length
decreasing_by
  · simp only [List.length_drop, List.length_cons]
    omega
  · simp

/-- Python str.replace on strings (non-empty pattern). -/
def pyReplace (s pat rep : String) : String :=
  String.mk (replaceList pat.data rep.data s.data)

/- ===== Retrieval (src/rag.py, get_relevant_context) ===== -/

/-- `result.metadata.get('source', 'Unknown source')` from
src/rag.py line 86. -/
def sourceNameOf (m : Metadata) : String :=
  m.source.getD "Unknown source"

/-- The skip condition of src/rag.py line 88:
`selected_sources and not any(src in source_name for src in selected_sources)`.
`none` models passing `selected_sources=None`; a supplied empty list is
falsy in Python, so it never skips. -/
def filterSkips (selected_sources : Option (List String)) (source_name : String) : Bool :=
  match selected_sources with
  | none => false
  | some ss => !ss.isEmpty && !ss.any (fun src => strContains source_name src)

/-- The Source record built at src/rag.py lines 93-96:
`os.path.basename(source_name) if source_name != 'Unknown source' else source_name`. -/
def sourceRecord (source_name page_num : String) : Source :=
  { name := if source_name ≠ "Unknown source" then basename source_name else source_name,
    page := page_num }

/-- get_relevant_context from src/rag.py lines 67-98, factored over the
list of similarity-search results (the `similarity_search` call itself
is the external vector store).  Results lacking (truthy) metadata are
skipped by the `hasattr(result, 'metadata') and result.metadata` guard;
kept results contribute their text (plus a newline) to the context and
one Source record, in search-result order. -/
def get_relevant_context : List Doc → Option (List String) → String × List Source
  | [], _ => ("", [])
  | result :: rest, selected_sources =>
    let tail := get_relevant_context rest selected_sources
    match result.metadata with
    | none => tail
    | some m =>
      let source_name := sourceNameOf m
      if filterSkips selected_sources source_name then tail
      else (result.page_content ++ "\n" ++ tail.1,
            sourceRecord source_name (m.page.getD "Unknown page") :: tail.2)

/-- The keep predicate as the spec words it (§4.4 step 3), extended with
the metadata guard the code applies: a result is kept iff it carries
truthy metadata and, when a non-empty filter is supplied, some filter
string is a substring of its (defaulted) source name. -/
def keepsResult (selected_sources : Option (List String)) (r : Doc) : Bool :=
  match r.metadata with
  | none => false
  | some m =>
    match selected_sources with
    | none => true
    | some ss => ss.isEmpty || ss.any (fun src => strContains (m.source.getD "Unknown source") src)

/-- The Source record a kept result produces, expressed as a total
function of the result (only applied to results that carry metadata). -/
def sourceRecordOf (r : Doc) : Source :=
  let m := r.metadata.getD { source := none, page := none }
  sourceRecord (sourceNameOf m) (m.page.getD "Unknown page")

/- ===== Prompt assembly (src/rag.py, generate_prompt) ===== -/

/-- The enumerated sources block of src/rag.py lines 103-106:
`"\n".join(f"Source \x7bi\x7d: \x7bsource.name\x7d, Page: \x7bsource.page\x7d" ...)`
with 1-based enumeration. -/
def sourcesTextOf (sources : List Source) : String :=
  String.intercalate "\n"
    ((List.enumFrom 1 sources).map
      (fun p => "Source " ++ toString p.1 ++ ": " ++ p.2.name ++ ", Page: " ++ p.2.page))

/-- The fixed part of the f-string template of src/rag.py lines 108-119,
up to the interpolation of `sources_text`.  The backslash-newline pairs
of the Python triple-quoted string are line continuations: they join the
first four template lines without a newline, keeping each line's
8-space indentation. -/
def promptHeader : String :=
  "\n        Vous êtes un assistant utile et informatif qui répond aux questions en utilisant le texte du contexte de référence inclus ci-dessous.        Assurez-vous de répondre par une phrase complète, en étant exhaustif et en incluant toutes les informations pertinentes.        Cependant, vous parlez à un public non technique, alors assurez-vous d\x27expliquer les concepts complexes de façon simple.        Si le contexte n\x27est pas pertinent pour la réponse, vous pouvez l\x27ignorer.\n        \n        TRÈS IMPORTANT: À la fin de votre réponse, citez les sources exactes que vous avez utilisées en indiquant \n        le nom du document et le numéro de page où l\x27information a été trouvée, en utilisant le format suivant:\n        [Source: nom_du_document, Page: numéro_de_page]\n        \n        Voici les sources disponibles:\n        "

/-- Template fragment between `sources_text` and `query`. -/
def promptAfterSources : String := "\n        \n        QUESTION: \x27"

/-- Template fragment between `query` and `escaped` (the context). -/
def promptAfterQuery : String := "\x27\n        CONTEXTE: \x27"

/-- Template fragment after `escaped`, closing the prompt. -/
def promptTail : String := "\x27\n             \n        RÉPONSE:\n        "

/-- generate_prompt from src/rag.py lines 100-125:
`escaped = context.replace("\n", "\\n")`, the enumerated sources block,
and the f-string template. -/
def generate_prompt (query context : String) (sources : List Source) : String :=
  let escaped := pyReplace context "\n" "\\n"
  let sources_text := sourcesTextOf sources
  promptHeader ++ sources_text ++ promptAfterSources ++ query ++ promptAfterQuery
    ++ escaped ++ promptTail

/- ===== Vector index build (src/generate_embeddings.py, create_vectorstore) ===== -/

/-- The persisted Chroma index as the repository observes it: the
indexed documents and the persistence location (`Chroma.from_documents`
itself is the external vector-database engine). -/
structure Chroma where
  documents : List Doc
  persist_directory : String
deriving DecidableEq, Repr

/-- The empty-index error of the spec (§4.3 `NoDocumentsError`), carried
with the message the code raises (`ValueError` in the Python source). -/
structure NoDocumentsError where
  message : String
deriving DecidableEq, Repr

/-- create_vectorstore from src/generate_embeddings.py lines 97-120:
`if not docs: raise ValueError("No documents provided for vectorstore creation")`,
otherwise build and persist the index from the documents. -/
def create_vectorstore (docs : List Doc) (persist_directory : String) :
    Except NoDocumentsError Chroma :=
  if docs.isEmpty then
    Except.error { message := "No documents provided for vectorstore creation" }
  else
    Except.ok { documents := docs, persist_directory := persist_directory }

/- ===== Chunking ===== -/

/-- Modelled from the spec: the chunking algorithm itself (langchain's
RecursiveCharacterTextSplitter, configured at src/generate_embeddings.py
lines 40-44 with chunk_size=CHUNK_SIZE, chunk_overlap=CHUNK_OVERLAP,
length_function=len) is library code absent from src/.  Spec §4.2
describes it as producing chunks of at most `size` characters with the
configured overlap shared between consecutive chunks; we model it as a
sliding window of width `size` advancing by `step = size - overlap`.
`fuel` is the input length, always sufficient for positive `step`. -/
def chunkListAux (size step : Nat) : Nat → List Char → List (List Char)
  | 0, cs => [cs]
  | fuel + 1, cs =>
    if cs.length ≤ size then [cs]
    else cs.take size :: chunkListAux size step fuel (cs.drop step)

/-- Modelled from the spec: sliding-window chunking of one text
(see `chunkListAux`). -/
def chunkList (size step : Nat) (cs : List Char) : List (List Char) :=
  chunkListAux size step cs.length cs

/-- Modelled from the spec: `text_splitter.split_documents` (§4.2) —
chunk each document's text with the configured CHUNK_SIZE/CHUNK_OVERLAP
window, propagating the document's metadata to every chunk, in document
order. -/
def split_documents (docs : List Doc) : List Doc :=
  docs.flatMap (fun d =>
    (chunkList CHUNK_SIZE (CHUNK_SIZE - CHUNK_OVERLAP) d.page_content.data).map
      (fun cs => { page_content := String.mk cs, metadata := d.metadata }))

/-- The metadata fixup loop of src/generate_embeddings.py lines 90-93:
`if not hasattr(doc, 'metadata') or not doc.metadata:` assign the
sentinel dict. -/
def ensureMetadata (d : Doc) : Doc :=
  match d.metadata with
  | none => { d with metadata := some { source := some "Unknown source", page := some "Unknown page" } }
  | some _ => d

/-- process_documents from src/generate_embeddings.py lines 74-95:
empty input short-circuits to [] (with a logged warning); otherwise
split the documents and apply the metadata fixup to every chunk. -/
def process_documents (docs : List Doc) : List Doc :=
  if docs.isEmpty then [] else (split_documents docs).map ensureMetadata

/- ===== Document ingestion (src/generate_embeddings.py, load_documents) ===== -/

/-- The log events emitted by load_documents (logger.warning /
logger.info / logger.error with the exact message strings of the
source). -/
inductive LogEvent where
  | warning (msg : String)
  | info (msg : String)
  | error (msg : String)
deriving DecidableEq, Repr

/-- The external world load_documents interacts with: path existence
(`Path(path).exists()`) and the PyPDFLoader outcome for an existing
path — either the per-page documents or an extraction failure message. -/
structure FileSystem where
  pathExists : String → Bool
  load : String → Except String (List Doc)

/-- load_documents from src/generate_embeddings.py lines 46-72: skip a
missing path with a warning, append the loaded pages of a readable
file (logging success), log an error and continue when extraction
raises.  Returns the flat document list and the log, both in input
order. -/
def load_documents (fs : FileSystem) : List String → List Doc × List LogEvent
  | [] => ([], [])
  | path :: rest =>
    if !fs.pathExists path then
      let t := load_documents fs rest
      (t.1, LogEvent.warning ("File not found: " ++ path) :: t.2)
    else
      match fs.load path with
      | Except.ok documents =>
        let t := load_documents fs rest
        (documents ++ t.1, LogEvent.info ("Successfully loaded: " ++ path) :: t.2)
      | Except.error e =>
        let t := load_documents fs rest
        (t.1, LogEvent.error ("Error loading " ++ path ++ ": " ++ e) :: t.2)

/- ===== Orchestration (src/app.py) ===== -/

/-- One reported line of the missing-files listing of src/app.py
line 25: `f"- \x7btitle\x7d (\x7bPath(path).name\x7d)"`. -/
def missingFileEntry (title path : String) : String :=
  "- " ++ title ++ " (" ++ basename path ++ ")"

/-- The missing_files accumulation loop of src/app.py lines 22-25. -/
def missingFiles (pathExists : String → Bool) : List (String × String) → List String
  | [] => []
  | (title, path) :: rest =>
    if !pathExists path then missingFileEntry title path :: missingFiles pathExists rest
    else missingFiles pathExists rest

/-- check_pdf_files from src/app.py lines 8-33: returns whether all
configured PDFs exist, together with the listing of missing-file lines
displayed via st.error. -/
def check_pdf_files (pathExists : String → Bool) : Bool × List String :=
  let missing := missingFiles pathExists BOOKS_MAP
  (missing.isEmpty, missing)

/-- Outcome of create_embeddings_if_needed: `stopped` models `st.stop()`
after a failed file check, `built` the index-build branch, `skipped`
the branch where a non-empty persisted index already exists. -/
inductive BuildOutcome where
  | stopped
  | built
  | skipped
deriving DecidableEq, Repr

/-- create_embeddings_if_needed from src/app.py lines 35-57:
`if not check_pdf_files(): st.stop()`, then build only when the persist
directory is missing or empty (`persistEmptyOrMissing`). -/
def create_embeddings_if_needed (pathExists : String → Bool)
    (persistEmptyOrMissing : Bool) : BuildOutcome :=
  if !(check_pdf_files pathExists).1 then BuildOutcome.stopped
  else if persistEmptyOrMissing then BuildOutcome.built
  else BuildOutcome.skipped

/- ===== Concrete values used by witnesses ===== -/

/-- A sample one-page document for witnesses. -/
def demoDoc : Doc :=
  { page_content := "page text",
    metadata := some { source := some "livres/a.pdf", page := some "1" } }

/-- A sample file system for witnesses: every path except
"missing.pdf" exists; loading "bad.pdf" raises; any other existing
path yields `demoDoc`. -/
def demoFS : FileSystem :=
  { pathExists := fun p => !(p == "missing.pdf"),
    load := fun p => if p == "bad.pdf" then Except.error "boom" else Except.ok [demoDoc] }

/-- A 700-character text, long enough to be split into two overlapping
chunks by the configured 600/100 window. -/
def longText : String := String.mk (List.replicate 700 'a')

/- ===== Theorems ===== -/

/-- On a result carrying metadata, the spec-worded keep predicate is the
negation of the code's skip condition. -/
theorem keepsResult_eq_not_skip (sel : Option (List String)) (r : Doc) (m : Metadata)
    (hm : r.metadata = some m) :
    keepsResult sel r = !(filterSkips sel (sourceNameOf m)) := by
  cases sel with
  | none => simp [keepsResult, filterSkips, hm]
  | some ss =>
    simp only [keepsResult, filterSkips, hm, sourceNameOf, Bool.not_and, Bool.not_not]

/-- Characterization of get_relevant_context: the context is the
concatenation (in search-result order) of "text plus newline" over the
kept results, and the sources are the corresponding Source records. -/
theorem get_relevant_context_spec (results : List Doc) (sel : Option (List String)) :
    get_relevant_context results sel =
      (((results.filter (keepsResult sel)).map (fun r => r.page_content ++ "\n")).foldr
         (fun a b => a ++ b) "",
       (results.filter (keepsResult sel)).map sourceRecordOf) := by
  induction results with
  | nil => rfl
  | cons r rs ih =>
    cases hm : r.metadata with
    | none =>
      have hk : keepsResult sel r = false := by simp [keepsResult, hm]
      simp [get_relevant_context, hm, List.filter_cons, hk, ih]
    | some m =>
      have hk := keepsResult_eq_not_skip sel r m hm
      by_cases hskip : filterSkips sel (sourceNameOf m) = true
      · have hk' : keepsResult sel r = false := by rw [hk, hskip]; rfl
        simp [get_relevant_context, hm, hskip, List.filter_cons, hk', ih]
      · have hskip' : filterSkips sel (sourceNameOf m) = false :=
          Bool.eq_false_iff.mpr hskip
        have hk' : keepsResult sel r = true := by rw [hk, hskip']; rfl
        simp only [get_relevant_context, hm, hskip', List.filter_cons, hk', if_true,
          Bool.false_eq_true, if_false, List.map_cons, List.foldr_cons, ih]
        simp [sourceRecordOf, hm, sourceNameOf, String.append_assoc]

/-- C1: for every query's search results and every supplied (non-empty)
source filter none of whose strings occurs as a substring of any
result's (defaulted) source metadata, get_relevant_context returns an
empty context string and an empty source list.  The embedding is a
total function, so no exception can be raised on this path: the guarded
attribute access and the defaulted dict lookups of the source never
throw.  (A supplied empty list is falsy in Python and counts as no
filter; see the C10 theorem.) -/
theorem c1_unmatched_filter_yields_empty (results : List Doc) (sels : List String)
    (hne : sels ≠ [])
    (hmiss : ∀ r ∈ results, ∀ m, r.metadata = some m →
      ∀ s ∈ sels, strContains (sourceNameOf m) s = false) :
    get_relevant_context results (some sels) = ("", []) := by
  induction results with
  | nil => rfl
  | cons r rs ih =>
    have ih' := ih (fun r hr => hmiss r (List.mem_cons_of_mem _ hr))
    cases hm : r.metadata with
    | none => simp [get_relevant_context, hm, ih']
    | some m =>
      have hany : sels.any (fun src => strContains (sourceNameOf m) src) = false := by
        rw [List.any_eq_false]
        intro s hs
        simp [hmiss r (List.mem_cons_self r rs) m hm s hs]
      have hskip : filterSkips (some sels) (sourceNameOf m) = true := by
        simp [filterSkips, hany, List.isEmpty_eq_false.mpr hne]
      simp [get_relevant_context, hm, hskip, ih']

/-- C1 witness: a concrete result whose source is "livres/a.pdf" and
the filter ["zzz"], which matches nothing. -/
theorem c1_witness :
    (["zzz"] : List String) ≠ []
    ∧ get_relevant_context [demoDoc] (some ["zzz"]) = ("", []) := by
  refine ⟨by decide, c1_unmatched_filter_yields_empty [demoDoc] ["zzz"] (by decide) ?_⟩
  intro r hr m hm s hs
  rw [List.mem_singleton] at hr
  subst hr
  rw [List.mem_singleton] at hs
  subst hs
  simp only [demoDoc, Option.some.injEq] at hm
  subst hm
  decide

/-- C2 counterexample: a single search result that carries no (truthy)
metadata, with no filter supplied.  The claim says all results are then
kept, so the context would be "hello" followed by a newline; the code
drops the result and returns an empty context. -/
theorem c2_counterexample_metadata_guard :
    (get_relevant_context [{ page_content := "hello", metadata := none }] none).1 = ""
    ∧ ("hello" ++ "\n" : String) ≠ "" := ⟨rfl, by decide⟩

/-- C2 amended: get_relevant_context keeps exactly the results that
carry truthy metadata and pass the filter (with a non-empty supplied
filter: some filter string is a substring of the result's defaulted
source name; otherwise: no further condition), and returns as context
the concatenation of the kept results' text, each followed by a
newline, in search-result order, together with the kept results' Source
records. -/
theorem c2_kept_results_characterization (results : List Doc) (sel : Option (List String)) :
    (get_relevant_context results sel).1 =
      ((results.filter (keepsResult sel)).map (fun r => r.page_content ++ "\n")).foldr
        (fun a b => a ++ b) ""
    ∧ (get_relevant_context results sel).2 =
      (results.filter (keepsResult sel)).map sourceRecordOf := by
  rw [get_relevant_context_spec results sel]
  exact ⟨rfl, rfl⟩

/-- C10: supplying an empty list as the selected-sources filter behaves
exactly like supplying no filter at all (the empty list is falsy in the
`selected_sources and ...` test), keeping every result that carries
truthy metadata rather than excluding everything. -/
theorem c10_empty_filter_is_no_filter (results : List Doc) :
    get_relevant_context results (some []) = get_relevant_context results none
    ∧ (get_relevant_context results (some [])).2 =
      (results.filter (fun r => r.metadata.isSome)).map sourceRecordOf := by
  have hk : ∀ r : Doc, keepsResult (some []) r = keepsResult none r := by
    intro r
    cases hm : r.metadata <;> simp [keepsResult, hm]
  have hk2 : ∀ r : Doc, keepsResult (some []) r = r.metadata.isSome := by
    intro r
    cases hm : r.metadata <;> simp [keepsResult, hm]
  constructor
  · rw [get_relevant_context_spec results (some []), get_relevant_context_spec results none,
      List.filter_congr (fun x _ => hk x)]
  · rw [get_relevant_context_spec results (some []),
      List.filter_congr (fun x _ => hk2 x)]

/-- C3: building the index from an empty chunk sequence always signals
the empty-index error (the spec's NoDocumentsError, raised as a
ValueError with this message in the source) and never produces a
persisted index, whatever the target persistence location. -/
theorem c3_empty_build_fails (persist_directory : String) :
    create_vectorstore [] persist_directory =
      Except.error { message := "No documents provided for vectorstore creation" }
    ∧ ∀ vs : Chroma, create_vectorstore [] persist_directory ≠ Except.ok vs := by
  refine ⟨rfl, ?_⟩
  intro vs h
  simp [create_vectorstore] at h

/-- C3 witness: the build at the configured persistence location. -/
theorem c3_witness :
    create_vectorstore [] PERSIST_DIRECTORY =
      Except.error { message := "No documents provided for vectorstore creation" } :=
  (c3_empty_build_fails PERSIST_DIRECTORY).1

/-- Single-character instance of Python str.replace: every occurrence
of the character is replaced by the replacement string, character by
character. -/
theorem replaceList_singleton (c : Char) (rep : List Char) (cs : List Char) :
    replaceList [c] rep cs = cs.flatMap (fun ch => if ch = c then rep else [ch]) := by
  induction cs with
  | nil => simp [replaceList]
  | cons x xs ih =>
    rw [replaceList]
    by_cases h : c = x
    · subst h
      simp [List.isPrefixOf, ih]
    · have hpre : List.isPrefixOf [c] (x :: xs) = false := by
        simp [List.isPrefixOf, h]
      simp [hpre, ih, h, Ne.symm h]

/-- C4: prompt assembly is a pure, deterministic function of
(query, context, sources) — identical inputs give an identical prompt —
and the context appears in the output with every newline character
replaced by the two-character sequence backslash-n (the prompt is the
fixed template around the escaped context, and the escaping rewrites
the context character by character).  The embedding is a total pure
function with no retrieval or network effect, matching the source,
which only manipulates its three arguments. -/
theorem c4_prompt_deterministic_and_escaped (q c : String) (s : List Source)
    (q' c' : String) (s' : List Source) (hq : q = q') (hc : c = c') (hs : s = s') :
    generate_prompt q c s = generate_prompt q' c' s'
    ∧ generate_prompt q c s =
      promptHeader ++ sourcesTextOf s ++ promptAfterSources ++ q ++ promptAfterQuery
        ++ pyReplace c "\n" "\\n" ++ promptTail
    ∧ (pyReplace c "\n" "\\n").data =
      c.data.flatMap (fun ch => if ch = '\n' then ['\\', 'n'] else [ch]) := by
  refine ⟨by rw [hq, hc, hs], rfl, ?_⟩
  show (String.mk (replaceList ['\n'] ['\\', 'n'] c.data)).data = _
  exact replaceList_singleton '\n' ['\\', 'n'] c.data

/-- C4 witness: concrete query, two-line context, one source. -/
theorem c4_witness :
    generate_prompt "Q" "a\nb" [{ name := "a.pdf", page := "1" }] =
      generate_prompt "Q" "a\nb" [{ name := "a.pdf", page := "1" }]
    ∧ generate_prompt "Q" "a\nb" [{ name := "a.pdf", page := "1" }] =
      promptHeader ++ sourcesTextOf [{ name := "a.pdf", page := "1" }] ++ promptAfterSources
        ++ "Q" ++ promptAfterQuery ++ pyReplace "a\nb" "\n" "\\n" ++ promptTail
    ∧ (pyReplace "a\nb" "\n" "\\n").data =
      ("a\nb" : String).data.flatMap (fun ch => if ch = '\n' then ['\\', 'n'] else [ch]) :=
  c4_prompt_deterministic_and_escaped "Q" "a\nb" [{ name := "a.pdf", page := "1" }]
    "Q" "a\nb" [{ name := "a.pdf", page := "1" }] rfl rfl rfl

/-- C5: a chunk carrying no (truthy) metadata is assigned the explicit
sentinel dict by process_documents, and retrieving it (no filter)
includes its text in the context and yields a Source record with name
"Unknown source" and page "Unknown page" — the downstream citation
formatting works on defaulted fields only and cannot fail. -/
theorem c5_sentinel_metadata (c : Doc) (hc : c.metadata = none) :
    (ensureMetadata c).metadata =
      some { source := some "Unknown source", page := some "Unknown page" }
    ∧ get_relevant_context [ensureMetadata c] none =
      (c.page_content ++ "\n", [{ name := "Unknown source", page := "Unknown page" }])
    ∧ ∀ docs : List Doc, docs ≠ [] → c ∈ split_documents docs →
        ensureMetadata c ∈ process_documents docs := by
  refine ⟨by simp [ensureMetadata, hc], ?_, ?_⟩
  · simp [get_relevant_context, ensureMetadata, hc, filterSkips, sourceNameOf, sourceRecord]
  · intro docs hdocs hmem
    simp only [process_documents, List.isEmpty_eq_false.mpr hdocs, if_false,
      Bool.false_eq_true]
    exact List.mem_map_of_mem ensureMetadata hmem

/-- C5 witness: a three-character chunk with no metadata, which is its
own single chunk when its document is processed. -/
theorem c5_witness :
    (ensureMetadata { page_content := "txt", metadata := none }).metadata =
      some { source := some "Unknown source", page := some "Unknown page" }
    ∧ get_relevant_context [ensureMetadata { page_content := "txt", metadata := none }] none =
      ("txt" ++ "\n", [{ name := "Unknown source", page := "Unknown page" }])
    ∧ ensureMetadata { page_content := "txt", metadata := none } ∈
        process_documents [{ page_content := "txt", metadata := none }] := by
  have h := c5_sentinel_metadata { page_content := "txt", metadata := none } rfl
  exact ⟨h.1, h.2.1, h.2.2 [{ page_content := "txt", metadata := none }]
    (by decide) (by decide)⟩

/-- The window chunker never returns an empty chunk list. -/
theorem chunkListAux_ne_nil (size step fuel : Nat) (cs : List Char) :
    chunkListAux size step fuel cs ≠ [] := by
  cases fuel with
  | zero => simp [chunkListAux]
  | succ f =>
    rw [chunkListAux]
    split <;> simp

/-- The first chunk of a window chunking of `ds` agrees with `ds` on any
prefix of length at most `size`. -/
theorem chunkListAux_head_take (size step fuel : Nat) (ds : List Char) (k : Nat)
    (hk : k ≤ size) (y : List Char) (t : List (List Char))
    (h : chunkListAux size step fuel ds = y :: t) :
    y.take k = ds.take k := by
  cases fuel with
  | zero =>
    simp only [chunkListAux, List.cons.injEq] at h
    rw [← h.1]
  | succ f =>
    rw [chunkListAux] at h
    by_cases hlen : ds.length ≤ size
    · rw [if_pos hlen] at h
      simp only [List.cons.injEq] at h
      rw [← h.1]
    · rw [if_neg hlen] at h
      simp only [List.cons.injEq] at h
      rw [← h.1, List.take_take, Nat.min_eq_left hk]

/-- Adjacent chunks of the window chunker: every non-final chunk is
exactly `size` characters long, and its last `size - step` characters
are precisely the first `size - step` characters of the next chunk. -/
theorem chunkListAux_adjacent (size step : Nat) (hstep : 0 < step) :
    ∀ (fuel : Nat) (cs : List Char), cs.length ≤ fuel →
      ∀ a b, (a, b) ∈ (chunkListAux size step fuel cs).zip (chunkListAux size step fuel cs).tail →
        a.length = size ∧ a.drop step = b.take (size - step) := by
  intro fuel
  induction fuel with
  | zero =>
    intro cs hcs a b hab
    simp [chunkListAux] at hab
  | succ f ih =>
    intro cs hcs a b hab
    rw [chunkListAux] at hab
    by_cases hlen : cs.length ≤ size
    · rw [if_pos hlen] at hab
      simp at hab
    · rw [if_neg hlen] at hab
      obtain ⟨y, t, hyt⟩ :=
        List.exists_cons_of_ne_nil (chunkListAux_ne_nil size step f (cs.drop step))
      rw [hyt] at hab
      simp only [List.zip_cons_cons, List.tail_cons, List.mem_cons, Prod.mk.injEq] at hab
      rcases hab with ⟨ha, hb⟩ | hab
      · subst ha
        constructor
        · rw [List.length_take]
          exact Nat.min_eq_left (Nat.le_of_lt (Nat.lt_of_not_le hlen))
        · rw [List.drop_take, hb]
          exact (chunkListAux_head_take size step f (cs.drop step) (size - step)
            (Nat.sub_le size step) y t hyt).symm
      · have hfuel : (cs.drop step).length ≤ f := by
          rw [List.length_drop]
          omega
        have := ih (cs.drop step) hfuel a b (by rw [hyt]; simpa using hab)
        exact this

/-- C6 (spec-modelled chunker): for every pair of adjacent chunks
produced from one source document's text with the configured
CHUNK_SIZE/CHUNK_OVERLAP window, the last CHUNK_OVERLAP characters of
the earlier chunk are exactly the first CHUNK_OVERLAP characters of the
later chunk, and that shared region has length exactly CHUNK_OVERLAP
(= 100).  Only the final chunk of a document may be shorter than
CHUNK_SIZE; it is never the earlier member of an adjacent pair. -/
theorem c6_adjacent_chunks_overlap (d : Doc) (a b : List Char)
    (hab : (a, b) ∈
      (chunkList CHUNK_SIZE (CHUNK_SIZE - CHUNK_OVERLAP) d.page_content.data).zip
        (chunkList CHUNK_SIZE (CHUNK_SIZE - CHUNK_OVERLAP) d.page_content.data).tail) :
    a.drop (CHUNK_SIZE - CHUNK_OVERLAP) = b.take CHUNK_OVERLAP
    ∧ (a.drop (CHUNK_SIZE - CHUNK_OVERLAP)).length = CHUNK_OVERLAP := by
  rw [chunkList] at hab
  have h := chunkListAux_adjacent CHUNK_SIZE (CHUNK_SIZE - CHUNK_OVERLAP) (by decide)
    d.page_content.data.length d.page_content.data (Nat.le_refl _) a b hab
  have hov : CHUNK_SIZE - (CHUNK_SIZE - CHUNK_OVERLAP) = CHUNK_OVERLAP := by decide
  constructor
  · rw [h.2, hov]
  · rw [List.length_drop, h.1, hov]

set_option maxRecDepth 100000 in
/-- C6 witness: a 700-character text splits into a 600-character chunk
followed by a 200-character chunk; their shared region is exactly the
100 characters at positions 500-599. -/
theorem c6_witness :
    (List.replicate 600 'a').drop 500 = (List.replicate 200 'a').take 100
    ∧ ((List.replicate 600 'a').drop 500).length = 100 := by
  have h := c6_adjacent_chunks_overlap { page_content := longText, metadata := none }
    (List.replicate 600 'a') (List.replicate 200 'a') (by decide)
  exact h

/-- Every chunk of the window chunker is at most `size` characters
long (for a positive step and sufficient fuel). -/
theorem chunkListAux_length_le (size step : Nat) (hstep : 0 < step) :
    ∀ (fuel : Nat) (cs : List Char), cs.length ≤ fuel →
      ∀ c ∈ chunkListAux size step fuel cs, c.length ≤ size := by
  intro fuel
  induction fuel with
  | zero =>
    intro cs hcs c hc
    have hnil : cs = [] := List.length_eq_zero.mp (Nat.le_zero.mp hcs)
    subst hnil
    simp only [chunkListAux, List.mem_singleton] at hc
    subst hc
    simp
  | succ f ih =>
    intro cs hcs c hc
    rw [chunkListAux] at hc
    by_cases hlen : cs.length ≤ size
    · rw [if_pos hlen] at hc
      rw [List.mem_singleton] at hc
      subst hc
      exact hlen
    · rw [if_neg hlen] at hc
      rcases List.mem_cons.mp hc with hc | hc
      · subst hc
        rw [List.length_take]
        exact Nat.min_le_left size cs.length
      · exact ih (cs.drop step) (by rw [List.length_drop]; omega) c hc

/-- C7 (spec-modelled chunker): for every non-empty document sequence,
no chunk produced by process_documents is longer than the configured
CHUNK_SIZE (600 characters). -/
theorem c7_chunks_never_exceed_max (docs : List Doc) (hne : docs ≠ []) :
    ∀ c ∈ process_documents docs, c.page_content.length ≤ CHUNK_SIZE := by
  intro c hc
  simp only [process_documents, List.isEmpty_eq_false.mpr hne, Bool.false_eq_true,
    if_false] at hc
  obtain ⟨c', hc', rfl⟩ := List.mem_map.mp hc
  rw [split_documents] at hc'
  obtain ⟨d, _, hcd⟩ := List.mem_flatMap.mp hc'
  obtain ⟨chunk, hchunk, rfl⟩ := List.mem_map.mp hcd
  have hpc : (ensureMetadata { page_content := String.mk chunk, metadata := d.metadata }).page_content
      = String.mk chunk := by
    cases d.metadata <;> rfl
  rw [hpc]
  show chunk.length ≤ CHUNK_SIZE
  rw [chunkList] at hchunk
  exact chunkListAux_length_le CHUNK_SIZE (CHUNK_SIZE - CHUNK_OVERLAP) (by decide)
    d.page_content.data.length d.page_content.data (Nat.le_refl _) chunk hchunk

/-- C7 witness: a one-document batch whose single five-character chunk
is within the 600-character bound. -/
theorem c7_witness :
    ([{ page_content := "hello", metadata := none }] : List Doc) ≠ []
    ∧ ({ page_content := "hello",
         metadata := some { source := some "Unknown source", page := some "Unknown page" } } :
        Doc).page_content.length ≤ CHUNK_SIZE :=
  ⟨by decide,
   c7_chunks_never_exceed_max [{ page_content := "hello", metadata := none }] (by decide)
     _ (by decide)⟩

/-- C8: load_documents skips each non-existing path with the exact
logged warning, logs an error and omits the file's contribution when
extraction fails on an existing path, and returns the flat ordered
concatenation of the page documents of every successfully processed
file. -/
theorem c8_load_documents_partial_success (fs : FileSystem) (paths : List String) :
    (load_documents fs paths).1 =
      paths.flatMap (fun p =>
        if fs.pathExists p then
          match fs.load p with
          | Except.ok ds => ds
          | Except.error _ => []
        else [])
    ∧ (∀ p ∈ paths, fs.pathExists p = false →
        LogEvent.warning ("File not found: " ++ p) ∈ (load_documents fs paths).2)
    ∧ (∀ p ∈ paths, ∀ e, fs.pathExists p = true → fs.load p = Except.error e →
        LogEvent.error ("Error loading " ++ p ++ ": " ++ e) ∈ (load_documents fs paths).2) := by
  induction paths with
  | nil =>
    refine ⟨rfl, ?_, ?_⟩
    · intro p hp
      cases hp
    · intro p hp
      cases hp
  | cons q rest ih =>
    refine ⟨?_, ?_, ?_⟩
    · rw [List.flatMap_cons]
      by_cases hq : fs.pathExists q
      · cases hload : fs.load q with
        | ok ds =>
          simp [load_documents, hq, hload, ih.1]
        | error e =>
          simp [load_documents, hq, hload, ih.1]
      · simp [load_documents, hq, ih.1]
    · intro p hp hmiss
      rcases List.mem_cons.mp hp with rfl | hp
      · simp [load_documents, hmiss]
      · have htail := ih.2.1 p hp hmiss
        by_cases hq : fs.pathExists q
        · cases hload : fs.load q with
          | ok ds => simp [load_documents, hq, hload, htail]
          | error e => simp [load_documents, hq, hload, htail]
        · simp [load_documents, hq, htail]
    · intro p hp e hex hload
      rcases List.mem_cons.mp hp with rfl | hp
      · simp [load_documents, hex, hload]
      · have htail := ih.2.2 p hp e hex hload
        by_cases hq : fs.pathExists q
        · cases hloadq : fs.load q with
          | ok ds => simp [load_documents, hq, hloadq, htail]
          | error e' => simp [load_documents, hq, hloadq, htail]
        · simp [load_documents, hq, htail]

/-- C8 witness: a batch with one missing path, one corrupt file, and
one readable file, on the demo file system. -/
theorem c8_witness :
    (load_documents demoFS ["missing.pdf", "bad.pdf", "good.pdf"]).1 = [demoDoc]
    ∧ LogEvent.warning "File not found: missing.pdf" ∈
        (load_documents demoFS ["missing.pdf", "bad.pdf", "good.pdf"]).2
    ∧ LogEvent.error "Error loading bad.pdf: boom" ∈
        (load_documents demoFS ["missing.pdf", "bad.pdf", "good.pdf"]).2 := by
  have h := c8_load_documents_partial_success demoFS ["missing.pdf", "bad.pdf", "good.pdf"]
  refine ⟨?_, ?_, ?_⟩
  · rw [h.1]
    decide
  · have := h.2.1 "missing.pdf" (by decide) (by decide)
    simpa using this
  · have := h.2.2 "bad.pdf" (by decide) "boom" (by decide) (by rfl)
    simpa using this

/-- The missing-files loop reports exactly the configured books whose
path does not exist, each formatted as "- title (filename)", in
configuration order. -/
theorem missingFiles_eq (pathExists : String → Bool) :
    ∀ books : List (String × String),
      missingFiles pathExists books =
        (books.filter (fun tp => !pathExists tp.2)).map (fun tp => missingFileEntry tp.1 tp.2) := by
  intro books
  induction books with
  | nil => rfl
  | cons tp rest ih =>
    obtain ⟨title, path⟩ := tp
    by_cases hp : pathExists path
    · simp [missingFiles, List.filter_cons, hp, ih]
    · simp [missingFiles, List.filter_cons, hp, ih]

/-- C9: whenever at least one configured book's source PDF is missing,
create_embeddings_if_needed stops (st.stop after the failed check)
without attempting an index build, and the file check reports exactly
the missing books, each as "- title (filename)". -/
theorem c9_missing_pdf_stops_build (pathExists : String → Bool) (persistEmptyOrMissing : Bool)
    (hmiss : ∃ tp ∈ BOOKS_MAP, pathExists tp.2 = false) :
    create_embeddings_if_needed pathExists persistEmptyOrMissing = BuildOutcome.stopped
    ∧ (check_pdf_files pathExists).2 =
      (BOOKS_MAP.filter (fun tp => !pathExists tp.2)).map
        (fun tp => missingFileEntry tp.1 tp.2) := by
  have hchar := missingFiles_eq pathExists BOOKS_MAP
  have hne : missingFiles pathExists BOOKS_MAP ≠ [] := by
    obtain ⟨tp, htp, hfalse⟩ := hmiss
    rw [hchar]
    intro hnil
    have : tp ∈ BOOKS_MAP.filter (fun tp => !pathExists tp.2) :=
      List.mem_filter.mpr ⟨htp, by rw [hfalse]; rfl⟩
    rw [List.map_eq_nil_iff] at hnil
    rw [hnil] at this
    cases this
  have hcheck : (check_pdf_files pathExists).1 = false := by
    simp only [check_pdf_files]
    exact List.isEmpty_eq_false.mpr hne
  constructor
  · simp [create_embeddings_if_needed, hcheck]
  · exact hchar

/-- C9 witness: no configured PDF exists; the orchestration stops and
reports all three configured books with their titles and filenames. -/
theorem c9_witness :
    create_embeddings_if_needed (fun _ => false) true = BuildOutcome.stopped
    ∧ (check_pdf_files (fun _ => false)).2 =
      (BOOKS_MAP.filter (fun tp => !(fun _ : String => false) tp.2)).map
        (fun tp => missingFileEntry tp.1 tp.2) :=
  c9_missing_pdf_stops_build (fun _ => false) true
    ⟨("Harry Potter 1", "harry-potter-1-lecole-des-sorciers.pdf"), by decide, rfl⟩
